import Mathlib

/-!
  # repomonc transport bridge: shallow embedding

  Embedding of the codec, datagram-filter, input-bridge and forwarding-driver
  logic of the repomonc repository (src/tcp.rs, src/udp.rs, src/run.rs,
  src/main.rs).

  The `Message` type, the bincode serializer and the `Display` form come from
  the external crates `repomon` / `repomon-config` / `bincode`; the
  specification treats them as external collaborators with a stated contract
  (deterministic encode, round-trip law, failure tolerance). They are
  modelled here from that contract; everything else is translated directly
  from the Rust source.
-/

/-- A wire byte. -/
abbrev Byte := Fin 256

/-- Modelled from the spec: the category enumeration of the external
`Message` type, with at minimum the variants Info, Ahead, Behind, UpToDate. -/
inductive Category where
  | info
  | ahead
  | behind
  | upToDate
deriving DecidableEq

/-- Modelled from the spec: the external `Message` type, an opaque
serializable value with a category and a display form (here: the bytes of
its display form). -/
structure Message where
  category : Category
  display : List Byte
deriving DecidableEq

/-- Modelled from the spec: the value produced by `Default::default()` for
the external `Message` type (a placeholder message). -/
def defaultMessage : Message := ⟨Category.info, []⟩

instance : Inhabited Message := ⟨defaultMessage⟩

/-- A resolved network address (IP plus port), the remote peer identity. -/
structure SocketAddr where
  ip : Nat
  port : Nat
deriving DecidableEq

/-- Failure of the underlying serialization. -/
inductive SerError where
  | tooLong
deriving DecidableEq

/-- Failure of the underlying deserialization (malformed bytes). -/
inductive DeError where
  | malformed
deriving DecidableEq

/-- Errors surfaced by the codec layer (io::Error in the source); the only
one the decoder itself can produce is a failed diagnostic write to stderr. -/
inductive IoErr where
  | stderrWriteFailed
deriving DecidableEq

/-- The numeric wire tag of a category (bincode encodes enum variants by
index). -/
def tagOf : Category → Nat
  | .info => 0
  | .ahead => 1
  | .behind => 2
  | .upToDate => 3

/-- Recover a category from its wire tag; unknown tags are rejected. -/
def catOfTag (n : Nat) : Option Category :=
  if n = 0 then some .info
  else if n = 1 then some .ahead
  else if n = 2 then some .behind
  else if n = 3 then some .upToDate
  else none

/-- Little-endian byte encoding of a natural number in `w` bytes. -/
def leBytes : Nat → Nat → List Byte
  | 0, _ => []
  | w + 1, n => ⟨n % 256, Nat.mod_lt _ (by norm_num)⟩ :: leBytes w (n / 256)

/-- Little-endian value of a byte list. -/
def fromLE : List Byte → Nat
  | [] => 0
  | b :: bs => b.val + 256 * fromLE bs

/-- Modelled from the spec: the external bincode serialization of a
`Message` (a 4-byte little-endian variant tag, an 8-byte little-endian
length, then the display bytes). It fails when a length is not
representable in 64 bits, the only failure mode left open by the contract. -/
def serialize (m : Message) : Except SerError (List Byte) :=
  if m.display.length < 2 ^ 64 then
    .ok (leBytes 4 (tagOf m.category) ++ (leBytes 8 m.display.length ++ m.display))
  else
    .error .tooLong

/-- Modelled from the spec: the external bincode deserialization of a
`Message`; malformed buffers (too short, unknown tag, or a length field
that does not match the body) are rejected. -/
def deserialize (buf : List Byte) : Except DeError Message :=
  if 12 ≤ buf.length then
    match catOfTag (fromLE (buf.take 4)) with
    | some cat =>
      if (buf.drop 12).length = fromLE ((buf.drop 4).take 8) then
        .ok ⟨cat, buf.drop 12⟩
      else
        .error .malformed
    | none => .error .malformed
  else
    .error .malformed

/-- Decide whether an `Except` value is an error. -/
def isErr : Except ε α → Bool
  | .error _ => true
  | .ok _ => false

/-- The stream codec decoder (`impl Decoder for Bytes` in src/tcp.rs).
An empty buffer yields no message and leaves the buffer untouched;
otherwise `split_to(len)` drains the whole buffer and the drained bytes
are deserialized as one frame. On deserialize failure the error is written
to stderr; `stderrOk` says whether that diagnostic write succeeds, and when
it fails the `?` operator returns the write failure as the decode result.
Returns the decode result paired with the buffer contents after the call. -/
def tcpDecode (stderrOk : Bool) (buf : List Byte) :
    Except IoErr (Option Message) × List Byte :=
  if buf.isEmpty then
    (.ok none, buf)
  else
    match deserialize buf with
    | .ok message => (.ok (some message), [])
    | .error _ =>
      if stderrOk then (.ok none, [])
      else (.error .stderrWriteFailed, [])

/-- The stream codec encoder (`impl Encoder for Bytes` in src/tcp.rs):
serialization success appends the bytes to the buffer; failure appends
nothing; both return `Ok(())`. -/
def tcpEncode (data : Message) (buf : List Byte) :
    Except IoErr Unit × List Byte :=
  match serialize data with
  | .ok bytes => (.ok (), buf ++ bytes)
  | .error _ => (.ok (), buf)

/-- The datagram codec decoder (`impl UdpCodec for Bytes` in src/udp.rs):
deserialization success pairs the message with the source address;
failure substitutes `Default::default()`; it never returns an error. -/
def udpDecode (addr : SocketAddr) (buf : List Byte) :
    Except IoErr (SocketAddr × Message) :=
  match deserialize buf with
  | .ok message => .ok (addr, message)
  | .error _ => .ok (addr, defaultMessage)

/-- The datagram codec encoder (`impl UdpCodec for Bytes` in src/udp.rs):
serialization success appends the bytes into the output vector; failure
appends nothing; the destination address is returned either way. -/
def udpEncode (addr : SocketAddr) (message : Message) (into : List Byte) :
    SocketAddr × List Byte :=
  match serialize message with
  | .ok bytes => (addr, into ++ bytes)
  | .error _ => (addr, into)

/-- The framed stage of the datagram inbound path: `udp.framed(Bytes)`
applies `UdpCodec::decode` to every received datagram, before any
filtering. The first component is the decoded (source, message) pairs in
order; the second records each buffer that was passed to the decoder. -/
def udpStage : List (SocketAddr × List Byte) →
    List (SocketAddr × Message) × List (List Byte)
  | [] => ([], [])
  | (src, buf) :: rest =>
    let tail := udpStage rest
    match udpDecode src buf with
    | .ok pair => (pair :: tail.1, buf :: tail.2)
    | .error _ => (tail.1, buf :: tail.2)

/-- The address filter of `udp::connect` (src/udp.rs): `filter_map` keeps a
decoded pair only when its source equals the configured remote address. -/
def udpFilter (remote : SocketAddr) (pairs : List (SocketAddr × Message)) :
    List Message :=
  pairs.filterMap (fun p => if p.1 = remote then some p.2 else none)

/-- The messages the datagram inbound path surfaces to the forwarding
driver: the framed decode stage followed by the address filter. -/
def udpInbound (remote : SocketAddr) (dgs : List (SocketAddr × List Byte)) :
    List Message :=
  udpFilter remote (udpStage dgs).1

/-- The buffers passed to `UdpCodec::decode` while processing the given
datagrams. -/
def udpDecodedBuffers (dgs : List (SocketAddr × List Byte)) :
    List (List Byte) :=
  (udpStage dgs).2

/-- One read result of the blocking stdin loop: an I/O error, or the chunk
of bytes obtained (after `truncate(n)`); an empty chunk is a zero read,
meaning end of input. -/
abbrev ReadResult := Except Unit (List Byte)

/-- Whether a read result keeps the stdin loop going (a successful read of
at least one byte). -/
def isDataRead : ReadResult → Bool
  | .ok (_ :: _) => true
  | _ => false

/-- The stdin bridge loop (`read_stdin` in src/run.rs and src/main.rs):
for each successful non-empty read it sends `Default::default()` on the
channel; it breaks on a read error or a zero read. Returns the sequence of
messages sent. -/
def read_stdin : List ReadResult → List Message
  | [] => []
  | .error _ :: _ => []
  | .ok [] :: _ => []
  | .ok (_ :: _) :: rest => defaultMessage :: read_stdin rest

/-- One observable effect on the local output sink. -/
inductive OutEvent where
  | write (bytes : List Byte)
  | flush
deriving DecidableEq

/-- The bytes of the fixed framing line, `New Message` followed by a
newline. -/
def newMessageLine : List Byte :=
  [78, 101, 119, 32, 77, 101, 115, 115, 97, 103, 101, 10]

/-- Modelled from the spec: the human-readable display form of the external
`Message` type (its display bytes). -/
def displayForm (m : Message) : List Byte := m.display

/-- The body of the forwarding loop in `fn main` (src/main.rs): for one
received message, write the framing line, write the display form followed
by a newline, then flush. -/
def forEachStep (out : List OutEvent) (chunk : Message) : List OutEvent :=
  out ++ [.write newMessageLine, .write (displayForm chunk ++ [10]), .flush]

/-- The forwarding driver (`core.run(stdout.for_each(..))` in src/main.rs):
fold the per-message body over the inbound message sequence, accumulating
the output-sink effects. -/
def mainDriver (inbound : List Message) : List OutEvent :=
  inbound.foldl forEachStep []

/-- The output-sink effects the driver performs for a single message. -/
def perMessageOutput (m : Message) : List OutEvent :=
  [.write newMessageLine, .write (displayForm m ++ [10]), .flush]

/-- A message whose display form is too long for a 64-bit length field, the
modelled serialization failure. -/
def oversizedMessage : Message :=
  ⟨Category.info, List.replicate (2 ^ 64) 0⟩

/-- The message the datagram decoder produces for a buffer: the
deserialized value on success, the placeholder on failure. -/
def udpMsg (buf : List Byte) : Message :=
  match deserialize buf with
  | .ok message => message
  | .error _ => defaultMessage

theorem leBytes_length (w n : Nat) : (leBytes w n).length = w := by
  induction w generalizing n with
  | zero => rfl
  | succ w ih => simp [leBytes, ih]

theorem fromLE_leBytes (w n : Nat) (h : n < 256 ^ w) :
    fromLE (leBytes w n) = n := by
  induction w generalizing n with
  | zero =>
    rw [pow_zero, Nat.lt_one_iff] at h
    simp [h, leBytes, fromLE]
  | succ w ih =>
    have hdiv : n / 256 < 256 ^ w := by
      rw [Nat.div_lt_iff_lt_mul (by norm_num)]
      calc n < 256 ^ (w + 1) := h
        _ = 256 ^ w * 256 := by ring
    simp only [leBytes, fromLE, ih _ hdiv]
    omega

theorem catOfTag_tagOf (c : Category) : catOfTag (tagOf c) = some c := by
  cases c <;> rfl

theorem take_len_append {α : Type} (xs ys : List α) (n : Nat)
    (h : xs.length = n) : (xs ++ ys).take n = xs := by
  subst h
  simp

theorem drop_len_append {α : Type} (xs ys : List α) (n : Nat)
    (h : xs.length = n) : (xs ++ ys).drop n = ys := by
  subst h
  simp

theorem serialize_of_lt (m : Message) (h : m.display.length < 2 ^ 64) :
    serialize m =
      .ok (leBytes 4 (tagOf m.category) ++
        (leBytes 8 m.display.length ++ m.display)) := by
  rw [serialize, if_pos h]

theorem deserialize_serialize (m : Message) (bs : List Byte)
    (h : serialize m = .ok bs) : deserialize bs = .ok m := by
  have hlen : m.display.length < 2 ^ 64 := by
    by_contra hc
    rw [serialize, if_neg hc] at h
    exact Except.noConfusion h
  rw [serialize_of_lt m hlen] at h
  injection h with hbs
  subst hbs
  have h4 : (leBytes 4 (tagOf m.category)).length = 4 := leBytes_length 4 _
  have h8 : (leBytes 8 m.display.length).length = 8 := leBytes_length 8 _
  have htag : tagOf m.category < 256 ^ 4 := by
    cases m.category <;> norm_num [tagOf]
  have hlen8 : m.display.length < 256 ^ 8 := by
    calc m.display.length < 2 ^ 64 := hlen
      _ = 256 ^ 8 := by norm_num
  have htake4 := take_len_append (leBytes 4 (tagOf m.category))
    (leBytes 8 m.display.length ++ m.display) 4 h4
  have hdrop4 := drop_len_append (leBytes 4 (tagOf m.category))
    (leBytes 8 m.display.length ++ m.display) 4 h4
  have htake8 := take_len_append (leBytes 8 m.display.length) m.display 8 h8
  have hdrop12 : (leBytes 4 (tagOf m.category) ++
      (leBytes 8 m.display.length ++ m.display)).drop 12 = m.display := by
    rw [← List.append_assoc]
    exact drop_len_append _ _ 12 (by simp [h4, h8])
  rw [deserialize,
    if_pos (by simp [h4, h8]; omega : 12 ≤ (leBytes 4 (tagOf m.category) ++
      (leBytes 8 m.display.length ++ m.display)).length),
    htake4, fromLE_leBytes 4 _ htag, catOfTag_tagOf, hdrop4, hdrop12, htake8,
    fromLE_leBytes 8 _ hlen8]
  simp

theorem isEmpty_false_of_ne_nil {α : Type} (l : List α) (h : l ≠ []) :
    l.isEmpty = false := by
  cases l with
  | nil => exact absurd rfl h
  | cons a t => rfl

theorem tcpDecode_nil (stderrOk : Bool) :
    tcpDecode stderrOk [] = (.ok none, []) := rfl

theorem tcpDecode_of_ok (stderrOk : Bool) (buf : List Byte) (m : Message)
    (hne : buf ≠ []) (hd : deserialize buf = .ok m) :
    tcpDecode stderrOk buf = (.ok (some m), []) := by
  simp [tcpDecode, isEmpty_false_of_ne_nil buf hne, hd]

theorem tcpDecode_of_err (stderrOk : Bool) (buf : List Byte)
    (hne : buf ≠ []) (hd : isErr (deserialize buf) = true) :
    tcpDecode stderrOk buf =
      if stderrOk then (.ok none, [])
      else (.error .stderrWriteFailed, []) := by
  cases he : deserialize buf with
  | ok m => rw [he] at hd; exact absurd hd (by simp [isErr])
  | error e => simp [tcpDecode, isEmpty_false_of_ne_nil buf hne, he]

theorem udpDecode_eq (addr : SocketAddr) (buf : List Byte) :
    udpDecode addr buf = .ok (addr, udpMsg buf) := by
  rw [udpDecode, udpMsg]
  cases deserialize buf <;> rfl

theorem udpMsg_of_err (buf : List Byte) (hd : isErr (deserialize buf) = true) :
    udpMsg buf = defaultMessage := by
  rw [udpMsg]
  cases he : deserialize buf with
  | ok m => rw [he] at hd; exact absurd hd (by simp [isErr])
  | error e => rfl

theorem udpStage_cons (src : SocketAddr) (buf : List Byte)
    (rest : List (SocketAddr × List Byte)) :
    udpStage ((src, buf) :: rest) =
      ((src, udpMsg buf) :: (udpStage rest).1, buf :: (udpStage rest).2) := by
  simp [udpStage, udpDecode_eq]

theorem udpInbound_cons (remote src : SocketAddr) (buf : List Byte)
    (rest : List (SocketAddr × List Byte)) :
    udpInbound remote ((src, buf) :: rest) =
      if src = remote then udpMsg buf :: udpInbound remote rest
      else udpInbound remote rest := by
  rw [udpInbound, udpStage_cons]
  by_cases h : src = remote <;> simp [udpFilter, udpInbound, h]

theorem udpInbound_nil (remote : SocketAddr) : udpInbound remote [] = [] := rfl

theorem mainDriver_go (ms : List Message) (acc : List OutEvent) :
    ms.foldl forEachStep acc = acc ++ (ms.map perMessageOutput).flatten := by
  induction ms generalizing acc with
  | nil => simp
  | cons m rest ih =>
    simp [List.foldl_cons, ih, forEachStep, perMessageOutput,
      List.append_assoc]

/-- C1: for every representable Message, decoding the byte sequence produced
by encoding it yields the same Message again, in both the stream (TCP)
codec and the datagram (UDP) codec. -/
theorem codec_roundtrip (m : Message) (h : m.display.length < 2 ^ 64) :
    (∀ stderrOk, tcpDecode stderrOk (tcpEncode m []).2 =
      (Except.ok (some m), [])) ∧
    (∀ addr, udpDecode addr (udpEncode addr m []).2 =
      Except.ok (addr, m)) := by
  have hser := serialize_of_lt m h
  have hdes := deserialize_serialize m _ hser
  have hne : leBytes 4 (tagOf m.category) ++
      (leBytes 8 m.display.length ++ m.display) ≠ [] := by
    intro hc
    have hlen := congrArg List.length hc
    simp [leBytes_length] at hlen
  constructor
  · intro stderrOk
    have henc : (tcpEncode m []).2 = leBytes 4 (tagOf m.category) ++
        (leBytes 8 m.display.length ++ m.display) := by
      simp [tcpEncode, hser]
    rw [henc]
    exact tcpDecode_of_ok stderrOk _ m hne hdes
  · intro addr
    have henc : (udpEncode addr m []).2 = leBytes 4 (tagOf m.category) ++
        (leBytes 8 m.display.length ++ m.display) := by
      simp [udpEncode, hser]
    rw [henc, udpDecode, hdes]

/-- C1 witness: the round trip evaluated at a concrete two-byte message. -/
theorem codec_roundtrip_check :
    (⟨Category.ahead, [104, 105]⟩ : Message).display.length < 2 ^ 64 ∧
    tcpDecode true (tcpEncode ⟨Category.ahead, [104, 105]⟩ []).2 =
      (Except.ok (some ⟨Category.ahead, [104, 105]⟩), []) ∧
    udpDecode ⟨127, 8080⟩
        (udpEncode ⟨127, 8080⟩ ⟨Category.ahead, [104, 105]⟩ []).2 =
      Except.ok (⟨127, 8080⟩, ⟨Category.ahead, [104, 105]⟩) :=
  ⟨by decide,
   (codec_roundtrip ⟨Category.ahead, [104, 105]⟩ (by decide)).1 true,
   (codec_roundtrip ⟨Category.ahead, [104, 105]⟩ (by decide)).2 ⟨127, 8080⟩⟩

/-- C2 counterexample: a datagram whose source differs from the configured
remote address is indeed never surfaced, but its buffer IS passed to the
codec decoder by the framed stage, so it is not discarded without being
decoded. -/
theorem datagram_nonmatching_decoded :
    (⟨0, 9001⟩ : SocketAddr) ≠ ⟨0, 9000⟩ ∧
    udpInbound ⟨0, 9000⟩ [(⟨0, 9001⟩, [7])] = [] ∧
    udpDecodedBuffers [(⟨0, 9001⟩, [7])] = [[7]] := by
  refine ⟨by decide, rfl, rfl⟩

/-- C2 amended: a datagram whose source differs from the configured remote
address contributes nothing to the surfaced message sequence, whatever its
payload and whatever other traffic surrounds it (it is, however, decoded by
the codec stage before the filter drops the result). -/
theorem datagram_filter_amended (remote src : SocketAddr) (buf : List Byte)
    (dgs1 dgs2 : List (SocketAddr × List Byte)) (h : src ≠ remote) :
    udpInbound remote (dgs1 ++ (src, buf) :: dgs2) =
      udpInbound remote (dgs1 ++ dgs2) := by
  induction dgs1 with
  | nil => simp [udpInbound_cons, h]
  | cons d rest ih =>
    obtain ⟨s, b⟩ := d
    simp [List.cons_append, udpInbound_cons, ih]

/-- C2 amended witness: the filter drops a concrete mismatched datagram. -/
theorem datagram_filter_amended_check :
    (⟨10, 9001⟩ : SocketAddr) ≠ ⟨10, 9000⟩ ∧
    udpInbound ⟨10, 9000⟩ ([] ++ (⟨10, 9001⟩, [1, 2]) :: []) =
      udpInbound ⟨10, 9000⟩ ([] ++ []) :=
  ⟨by decide,
   datagram_filter_amended ⟨10, 9000⟩ ⟨10, 9001⟩ [1, 2] [] [] (by decide)⟩

/-- C3 counterexample: a malformed buffer makes the datagram codec produce
a Message (the placeholder), so malformed-buffer decode does not produce
no Message in both codecs. -/
theorem malformed_udp_produces_message :
    isErr (deserialize [1]) = true ∧
    udpDecode ⟨0, 9000⟩ [1] = Except.ok (⟨0, 9000⟩, defaultMessage) :=
  ⟨rfl, rfl⟩

/-- C3 amended: on a malformed non-empty buffer the stream codec produces
no Message and no error provided the stderr diagnostic write succeeds,
while the datagram codec never errors but produces the placeholder
Message. -/
theorem malformed_decode_amended (buf : List Byte) (addr : SocketAddr)
    (hne : buf ≠ []) (hbad : isErr (deserialize buf) = true) :
    tcpDecode true buf = (.ok none, []) ∧
    udpDecode addr buf = .ok (addr, defaultMessage) := by
  refine ⟨?_, ?_⟩
  · rw [tcpDecode_of_err true buf hne hbad]
    rfl
  · rw [udpDecode_eq, udpMsg_of_err buf hbad]

/-- C3 amended witness: evaluated at a concrete malformed buffer. -/
theorem malformed_decode_amended_check :
    ([1, 2, 3] : List Byte) ≠ [] ∧
    tcpDecode true [1, 2, 3] = (.ok none, []) ∧
    udpDecode ⟨0, 7⟩ [1, 2, 3] = .ok (⟨0, 7⟩, defaultMessage) :=
  ⟨by decide,
   (malformed_decode_amended [1, 2, 3] ⟨0, 7⟩ (by decide) (by decide)).1,
   (malformed_decode_amended [1, 2, 3] ⟨0, 7⟩ (by decide) (by decide)).2⟩

/-- C4: the stdin bridge sends exactly one Message per successful non-empty
read, and that Message is always the placeholder: the sequence sent is a
replicate of the default value whose length depends only on the shape of
the reads, never on the bytes in the chunks. -/
theorem read_stdin_placeholder (reads : List ReadResult) :
    read_stdin reads =
      List.replicate (reads.takeWhile isDataRead).length defaultMessage := by
  induction reads with
  | nil => rfl
  | cons r rest ih =>
    cases r with
    | error e => rfl
    | ok chunk =>
      cases chunk with
      | nil => rfl
      | cons b bs =>
        simp [read_stdin, List.takeWhile_cons, isDataRead, ih,
          List.replicate_succ]

/-- C5: an accepted envelope (source equal to the configured remote) whose
payload fails to deserialize still surfaces a Message, namely the
placeholder, in its position in the inbound sequence. -/
theorem udp_decode_failure_default (remote : SocketAddr) (buf : List Byte)
    (dgs1 dgs2 : List (SocketAddr × List Byte))
    (hbad : isErr (deserialize buf) = true) :
    udpInbound remote (dgs1 ++ (remote, buf) :: dgs2) =
      udpInbound remote dgs1 ++ defaultMessage :: udpInbound remote dgs2 := by
  induction dgs1 with
  | nil => simp [udpInbound_cons, udpMsg_of_err buf hbad, udpInbound_nil]
  | cons d rest ih =>
    obtain ⟨s, b⟩ := d
    by_cases hs : s = remote <;>
      simp [List.cons_append, udpInbound_cons, hs, ih]

/-- C5 witness: a concrete malformed payload from the remote surfaces the
placeholder message. -/
theorem udp_decode_failure_default_check :
    isErr (deserialize [2]) = true ∧
    udpInbound ⟨0, 9000⟩ ([] ++ (⟨0, 9000⟩, [2]) :: []) =
      udpInbound ⟨0, 9000⟩ [] ++
        defaultMessage :: udpInbound ⟨0, 9000⟩ [] :=
  ⟨by decide, udp_decode_failure_default ⟨0, 9000⟩ [2] [] [] (by decide)⟩

/-- C6: encoding never returns an error, and when the underlying
serialization fails both encoders leave their output buffer untouched
(zero bytes appended) while still returning success. -/
theorem encode_failure_silent (m : Message) (addr : SocketAddr)
    (buf into : List Byte) :
    (tcpEncode m buf).1 = .ok () ∧
    (isErr (serialize m) = true →
      tcpEncode m buf = (.ok (), buf) ∧
      udpEncode addr m into = (addr, into)) := by
  cases hs : serialize m <;> simp [tcpEncode, udpEncode, isErr, hs]

/-- C6 witness: evaluated at a message whose serialization fails. -/
theorem encode_failure_silent_check :
    isErr (serialize oversizedMessage) = true ∧
    tcpEncode oversizedMessage [3] = (.ok (), [3]) ∧
    udpEncode ⟨1, 2⟩ oversizedMessage [4] = (⟨1, 2⟩, [4]) := by
  have hlen : oversizedMessage.display.length = 2 ^ 64 := by
    show (List.replicate (2 ^ 64) (0 : Byte)).length = 2 ^ 64
    exact List.length_replicate _ _
  have hbad : isErr (serialize oversizedMessage) = true := by
    rw [serialize, if_neg (by rw [hlen]; exact Nat.lt_irrefl _)]
    rfl
  exact ⟨hbad,
    ((encode_failure_silent oversizedMessage ⟨1, 2⟩ [3] [4]).2 hbad).1,
    ((encode_failure_silent oversizedMessage ⟨1, 2⟩ [3] [4]).2 hbad).2⟩

/-- C7 counterexample: the datagram codec turns an empty buffer into the
default Message, so the empty buffer does not produce no Message in both
codecs. -/
theorem empty_udp_default_message :
    udpDecode ⟨0, 9000⟩ [] = Except.ok (⟨0, 9000⟩, defaultMessage) := rfl

/-- C7 amended: an empty buffer yields no Message and no error in the
stream codec, while the datagram codec treats it as a failed
deserialization and produces the placeholder Message. -/
theorem empty_decode_amended (stderrOk : Bool) (addr : SocketAddr) :
    tcpDecode stderrOk [] = (.ok none, []) ∧
    udpDecode addr [] = .ok (addr, defaultMessage) :=
  ⟨rfl, rfl⟩

/-- C8: on any non-empty buffer one stream-decoder call drains the whole
buffer, and the buffer content is interpreted as exactly one frame: a
Message comes out precisely when the whole buffer deserializes to it. -/
theorem tcp_whole_buffer_frame (stderrOk : Bool) (buf : List Byte)
    (hne : buf ≠ []) :
    (tcpDecode stderrOk buf).2 = [] ∧
    (∀ m, deserialize buf = .ok m →
      (tcpDecode stderrOk buf).1 = .ok (some m)) ∧
    (∀ m, (tcpDecode stderrOk buf).1 = .ok (some m) →
      deserialize buf = .ok m) := by
  cases hd : deserialize buf with
  | ok m =>
    rw [tcpDecode_of_ok stderrOk buf m hne hd]
    refine ⟨rfl, ?_, ?_⟩
    · intro m2 hm2
      injection hm2 with h2
      rw [h2]
    · intro m2 hm2
      injection hm2 with h2
      injection h2 with h3
      rw [h3]
  | error e =>
    have hbad : isErr (deserialize buf) = true := by rw [hd]; rfl
    rw [tcpDecode_of_err stderrOk buf hne hbad]
    cases stderrOk <;> simp [hd]

/-- C8 witness: a concrete twelve-byte buffer is drained in one call. -/
theorem tcp_whole_buffer_frame_check :
    (List.replicate 12 (0 : Byte)) ≠ [] ∧
    (tcpDecode true (List.replicate 12 (0 : Byte))).2 = [] :=
  ⟨by decide,
   (tcp_whole_buffer_frame true (List.replicate 12 (0 : Byte))
     (by decide)).1⟩

/-- C9: for every inbound message sequence, the forwarding driver emits,
per message and in order, a write of the fixed framing line, a write of
the display form followed by a newline, and a flush, with no
transformation or reordering. -/
theorem main_driver_output (inbound : List Message) :
    mainDriver inbound =
      (inbound.map (fun m => [OutEvent.write newMessageLine,
        OutEvent.write (displayForm m ++ [10]), OutEvent.flush])).flatten := by
  rw [mainDriver, mainDriver_go]
  rfl

/-- C10: the stream decoder returns an error exactly when a deserialize
failure occurs on a non-empty buffer and the diagnostic write to stderr
itself fails; when the diagnostic write succeeds a deserialize failure
yields no Message and no error. -/
theorem tcp_decode_error_exactly_stderr (stderrOk : Bool) (buf : List Byte) :
    isErr (tcpDecode stderrOk buf).1 =
      (!stderrOk && !buf.isEmpty && isErr (deserialize buf)) ∧
    (isErr (deserialize buf) = true →
      tcpDecode true buf = (.ok none, [])) := by
  constructor
  · by_cases hb : buf = []
    · subst hb
      cases stderrOk <;> rfl
    · cases hd : deserialize buf with
      | ok m =>
        rw [tcpDecode_of_ok stderrOk buf m hb hd]
        cases stderrOk <;>
          simp [isErr, isEmpty_false_of_ne_nil buf hb, hd]
      | error e =>
        have hbad : isErr (deserialize buf) = true := by rw [hd]; rfl
        rw [tcpDecode_of_err stderrOk buf hb hbad]
        cases stderrOk <;>
          simp [isErr, isEmpty_false_of_ne_nil buf hb, hd]
  · intro hbad
    by_cases hb : buf = []
    · subst hb
      rfl
    · rw [tcpDecode_of_err true buf hb hbad]
      rfl

/-- C10 witness: evaluated at a concrete malformed buffer with a failing
and with a succeeding stderr write. -/
theorem tcp_decode_error_exactly_stderr_check :
    isErr (tcpDecode false [3]).1 =
      (!false && !([3] : List Byte).isEmpty && isErr (deserialize [3])) ∧
    tcpDecode true [3] = (.ok none, []) :=
  ⟨(tcp_decode_error_exactly_stderr false [3]).1,
   (tcp_decode_error_exactly_stderr true [3]).2 (by decide)⟩
